import Mathlib

/-!
Verification development for the telecom back-office demo application
(`demo_app`): a shallow embedding in Lean 4 of the status-lifecycle,
line-resolution, service-lookup and bulk-operation logic of
`demo_app/models.py`, `demo_app/views.py`, `demo_app/chatbot.py` and
`demo_app/management/commands/cancel_lines.py`, together with theorems
about the behaviour of that logic.

Conventions of the embedding:
* Django model rows become Lean structures; a table becomes a `List` of
  rows in the ordering the ORM returns (for `Line`, the `Meta.ordering`
  by `line_name`; the theorems below never depend on which total order
  it is).
* Queryset filters become `List.filter`; `queryset.update(...)` becomes
  `List.map` of the per-row update; `.first()` becomes `List.head?`.
* `DecimalField` money amounts become `Rat` (exact decimal arithmetic).
* Python strings become `String`; the handful of `str` methods the code
  uses (`lower`, `strip`, `split`, `replace`, `startswith`, Django's
  `__icontains`) are re-implemented below on `List Char` so that every
  definition is executable and evaluable by the kernel.
-/

/-! ## String helpers (Python `str` / Django lookups) -/

/-- ASCII lower-casing of a string: Python `str.lower()` on the ASCII
identifiers this application handles. -/
def pyLower (s : String) : String :=
  ⟨s.data.map Char.toLower⟩

/-- Whitespace test used by Python `str.strip()` / `str.split()`. -/
def pyIsSpace (c : Char) : Bool :=
  c = ' ' || c = '\t' || c = '\n' || c = '\r'

/-- Python `str.strip()`: drop leading and trailing whitespace. -/
def pyStrip (s : String) : String :=
  ⟨((s.data.dropWhile pyIsSpace).reverse.dropWhile pyIsSpace).reverse⟩

/-- `needle` occurs as a contiguous substring of `hay`. -/
def substr (needle hay : List Char) : Bool :=
  hay.tails.any (fun t => needle.isPrefixOf t)

/-- Django `field__icontains=needle`: case-insensitive substring
containment. -/
def icontains (hay needle : String) : Bool :=
  substr (needle.data.map Char.toLower) (hay.data.map Char.toLower)

/-- Python `str.startswith(pre)`. -/
def pyStartsWith (s pre : String) : Bool :=
  pre.data.isPrefixOf s.data

/-- Python `str.replace`-style scanning on char lists: replace every
non-overlapping occurrence of `pat` (scanning left to right) by `rep`.
Recursion is driven by a fuel argument so that the definition is
structural and kernel-reducible; each step consumes at least one input
character, so fuel equal to the input length suffices. `pat` is
non-empty at the call sites (the code only ever strips the literals
`"+1-"` and `"555-"`). -/
def replaceFuel (pat rep : List Char) : Nat → List Char → List Char
  | 0, l => l
  | _ + 1, [] => []
  | fuel + 1, c :: cs =>
    if pat.isPrefixOf (c :: cs) && !pat.isEmpty then
      rep ++ replaceFuel pat rep fuel (cs.drop (pat.length - 1))
    else
      c :: replaceFuel pat rep fuel cs

/-- Python `s.replace(pat, rep)` for non-empty `pat`. -/
def pyReplace (s pat rep : String) : String :=
  ⟨replaceFuel pat.data rep.data s.data.length s.data⟩

/-- Python `str.split()` with no separator: maximal runs of
non-whitespace characters, empty tokens dropped. -/
def pySplitAux : List Char → List Char → List String
  | [], acc => if acc.isEmpty then [] else [⟨acc.reverse⟩]
  | c :: cs, acc =>
    if pyIsSpace c then
      if acc.isEmpty then pySplitAux cs [] else (⟨acc.reverse⟩ : String) :: pySplitAux cs []
    else
      pySplitAux cs (c :: acc)

/-- Python `str.split()` (whitespace tokenisation). -/
def pySplit (s : String) : List String :=
  pySplitAux s.data []

/-! ## Data model (`demo_app/models.py`) -/

/-- `Line.STATUS_CHOICES` in `models.py`. -/
inductive LineStatus where
  | ACTIVE
  | SUSPENDED
  | CANCELLED
deriving DecidableEq, Repr

/-- `Account.STATUS_CHOICES` in `models.py`. -/
inductive AccountStatus where
  | ACTIVE
  | INACTIVE
deriving DecidableEq, Repr

/-- A `Line` row (`models.py`), restricted to the fields the verified
logic reads or writes.  `cancelled_on` mirrors the in-memory attribute
of the same name that `cancel_lines.py` sets and
`reactivate_cancelled_lines` clears; it is not a database column of the
`Line` model, so it models the transient Python attribute. -/
structure Line where
  id : Nat
  line_name : String
  msdn : String
  employee_name : String
  employee_number : String
  status : LineStatus
  cancelled_on : Option Nat := none
deriving DecidableEq, Repr

/-- An `Account` row together with its `lines` related set, in the
ordering `account.lines.all()` returns. -/
structure Account where
  id : Nat
  status : AccountStatus
  lines : List Line
deriving DecidableEq, Repr

/-! ## Status lifecycle (`models.py`: `Account.save`, `Account.update_status`) -/

/-- `self.lines.update(status='CANCELLED')`. -/
def cancelAllLines (ls : List Line) : List Line :=
  ls.map (fun l => { l with status := LineStatus.CANCELLED })

/-- The cascade side effect of `Account.save` (`models.py` lines 36-52):
after the row itself is saved, if the account previously existed with a
different status and the new status is `INACTIVE`, every owned line is
forced to `CANCELLED`.  `oldStatus` is the status read back from the
database (`none` for a new account). -/
def Account.saveCascade (oldStatus : Option AccountStatus) (a : Account) : Account :=
  if (match oldStatus with
      | some o => o ≠ a.status
      | none => False : Bool) && a.status = AccountStatus.INACTIVE then
    { a with lines := cancelAllLines a.lines }
  else
    a

/-- `Account.update_status` (`models.py` lines 54-65): on `INACTIVE`,
cancel every line, then set the status and save; on `ACTIVE`, just set
the status and save (explicitly no cascade on reactivation).  The
`save` call sees the pre-update status as the database copy. -/
def Account.update_status (a : Account) (newStatus : AccountStatus) : Account :=
  let a1 :=
    match newStatus with
    | AccountStatus.INACTIVE => { a with lines := cancelAllLines a.lines }
    | AccountStatus.ACTIVE => a
  Account.saveCascade (some a.status) { a1 with status := newStatus }

/-! ## Bulk suspend endpoint (`views.py`, `suspend_lines`, lines 435-471) -/

/-- The JSON envelope of the bulk line endpoints: a 400 error for a
missing/unmatched id list, or a 200 success naming the ids of the lines
actually changed. -/
inductive ViewResponse where
  | badRequest (msg : String)
  | ok (changed_ids : List Nat)
deriving DecidableEq, Repr

/-- The per-row effect of the suspend loop in `views.suspend_lines`:
a selected line is suspended only if it is currently `ACTIVE`;
every other row is left untouched. -/
def viewSuspendStep (line_ids : List Nat) (l : Line) : Line :=
  if l.id ∈ line_ids ∧ l.status = LineStatus.ACTIVE then
    { l with status := LineStatus.SUSPENDED }
  else l

/-- `views.suspend_lines` (lines 435-471): reject an empty id list or an
id list matching no line; otherwise suspend each selected `ACTIVE` line
and report only the lines actually changed. -/
def views_suspend_lines (db : List Line) (line_ids : List Nat) :
    List Line × ViewResponse :=
  if line_ids.isEmpty then
    (db, ViewResponse.badRequest "Line IDs are required")
  else if (db.filter (fun l => decide (l.id ∈ line_ids))).isEmpty then
    (db, ViewResponse.badRequest "No valid lines found")
  else
    (db.map (viewSuspendStep line_ids),
     ViewResponse.ok
       (((db.filter (fun l => decide (l.id ∈ line_ids))).filter
           (fun l => decide (l.status = LineStatus.ACTIVE))).map Line.id))

/-! ## Line resolver (`chatbot.py`, `_find_lines`, lines 702-760) -/

/-- The direct four-field match of `_find_lines` (lines 719-724):
`Q(line_name__icontains=i) | Q(msdn__icontains=i) |
Q(employee_name__icontains=i) | Q(employee_number__icontains=i)`. -/
def directMatch (ident : String) (l : Line) : Bool :=
  icontains l.line_name ident || icontains l.msdn ident ||
    icontains l.employee_name ident || icontains l.employee_number ident

/-- The account lines passing the direct four-field match. -/
def directMatches (a : Account) (ident : String) : List Line :=
  a.lines.filter (directMatch ident)

/-- The phone-fragment retry of `_find_lines` (lines 728-735): when the
identifier starts with `"+1-"` or `"555"`, remove every occurrence of
`"+1-"` and then of `"555-"` and, if anything is left, match the
remainder against `msdn` alone (`if clean_identifier:` guards the empty
remainder). -/
def phoneRetry (a : Account) (ident : String) : List Line :=
  if pyStartsWith ident "+1-" || pyStartsWith ident "555" then
    if (pyReplace (pyReplace ident "+1-" "") "555-" "").isEmpty then []
    else a.lines.filter (fun l =>
      icontains l.msdn (pyReplace (pyReplace ident "+1-" "") "555-" ""))
  else []

/-- The employee-name token fallback of `_find_lines` (lines 737-748):
walk the whitespace tokens of the identifier; each token longer than
two characters is substring-matched against `employee_name`, and the
first token with any match supplies the result. -/
def tokenFallback (a : Account) : List String → List Line
  | [] => []
  | part :: parts =>
    if part.length > 2 then
      if (a.lines.filter (fun l => icontains l.employee_name part)).isEmpty then
        tokenFallback a parts
      else
        a.lines.filter (fun l => icontains l.employee_name part)
    else tokenFallback a parts

/-- The matches `_find_lines` collects for one identifier (lines
716-748): normalise with `lower().strip()`, take the direct four-field
matches, and only when they are empty fall back first to the phone
retry and then to the employee-name token walk. -/
def matchesFor (a : Account) (raw : String) : List Line :=
  if (directMatches a (pyStrip (pyLower raw))).isEmpty then
    if (phoneRetry a (pyStrip (pyLower raw))).isEmpty then
      tokenFallback a (pySplit (pyStrip (pyLower raw)))
    else phoneRetry a (pyStrip (pyLower raw))
  else directMatches a (pyStrip (pyLower raw))

/-- The identifier loop of `_find_lines` (lines 711-750): blank
identifiers (`if not identifier or not identifier.strip(): continue`)
contribute nothing; every other identifier appends its matches. -/
def collectMatches (a : Account) : List String → List Line
  | [] => []
  | i :: is =>
    if (pyStrip i).isEmpty then collectMatches a is
    else matchesFor a i ++ collectMatches a is

/-- The deduplication loop of `_find_lines` (lines 752-758) with its
`seen` set of line ids: a line whose id was already seen is dropped,
otherwise it is kept and its id recorded. -/
def dedupByIdAux (seen : List Nat) : List Line → List Line
  | [] => []
  | l :: ls =>
    if l.id ∈ seen then dedupByIdAux seen ls
    else l :: dedupByIdAux (l.id :: seen) ls

/-- First-seen deduplication by `line.id` (lines 752-758), starting
from an empty `seen` set. -/
def dedupById (ls : List Line) : List Line :=
  dedupByIdAux [] ls

/-- `_find_lines` (lines 702-760).  `line_identifiers = none` models
the Python default `None`; both `none` and `some []` fail the
`if not line_identifiers` truthiness test and return every line of the
account (optionally filtered by `status_filter`). -/
def find_lines (a : Account) (line_identifiers : Option (List String))
    (status_filter : Option LineStatus) : List Line :=
  if (line_identifiers.getD []).isEmpty then
    match status_filter with
    | some s => a.lines.filter (fun l => decide (l.status = s))
    | none => a.lines
  else
    dedupById (collectMatches a (line_identifiers.getD []))

/-- Modelled from the spec: the resolver "deduplicate[s] by line
identity while preserving first-seen order" — on the sequence of
matched line ids, keep the first occurrence of each id.  Used only to
compare the code's `dedupById` against the spec's description. -/
def dedupFirstSpecAux (seen : List Nat) : List Nat → List Nat
  | [] => []
  | n :: ns =>
    if n ∈ seen then dedupFirstSpecAux seen ns
    else n :: dedupFirstSpecAux (n :: seen) ns

/-- See `dedupFirstSpecAux`: the id sequence with every repeated id
dropped, keeping first occurrences in order. -/
def dedupFirstSpec (ns : List Nat) : List Nat :=
  dedupFirstSpecAux [] ns

/-- Modelled from the spec: "split the identifier into
whitespace-separated tokens and each token of length greater than 2 is
substring-matched against `employee_name` only, stopping at the first
token that yields any match."  Used only to compare the code's
`tokenFallback` against the spec's description. -/
def specTokenWalk (a : Account) : List String → List Line
  | [] => []
  | t :: ts =>
    if t.length > 2 ∧ (a.lines.filter (fun l => icontains l.employee_name t)) ≠ [] then
      a.lines.filter (fun l => icontains l.employee_name t)
    else specTokenWalk a ts

/-! ## Service catalog (`models.py` `Service`, `chatbot.py` `_find_service`) -/

/-- `Service.SERVICE_TYPE_CHOICES` in `models.py`. -/
inductive ServiceType where
  | INTERNATIONAL_PASS
  | DATA_ADDON
  | CALLING_ADDON
deriving DecidableEq, Repr

/-- A `Service` catalog row (`models.py`), restricted to the fields the
verified logic reads (the description, data allowance, feature list and
creation timestamp are never consulted by it). -/
structure Service where
  id : Nat
  name : String
  service_type : ServiceType
  price : Rat
  duration_days : Nat
  is_active : Bool
deriving DecidableEq, Repr

/-- `_find_service` (`chatbot.py` lines 673-699): lower-case the
descriptor; try the exact canonical-key table, then the keyword
synonym lists in order, then a name substring search; each rule takes
the first active service matching its filter.  The catalog list stands
for `Service.objects` in its `Meta.ordering` (by price). -/
def find_service (catalog : List Service) (service_type : String) : Option Service :=
  if pyLower service_type = "1_day" then
    (catalog.filter (fun s => s.is_active && decide (s.duration_days = 1))).head?
  else if pyLower service_type = "10_day" then
    (catalog.filter (fun s => s.is_active && decide (s.duration_days = 10))).head?
  else if pyLower service_type = "30_day" then
    (catalog.filter (fun s => s.is_active && decide (s.duration_days = 30))).head?
  else if pyLower service_type = "international_pass" then
    (catalog.filter (fun s => s.is_active
      && decide (s.service_type = ServiceType.INTERNATIONAL_PASS))).head?
  else if ["1 day", "1day", "one day"].any
      (fun k => substr k.data (pyLower service_type).data) then
    (catalog.filter (fun s => decide (s.duration_days = 1) && s.is_active)).head?
  else if ["10 day", "10day", "ten day", "week"].any
      (fun k => substr k.data (pyLower service_type).data) then
    (catalog.filter (fun s => decide (s.duration_days = 10) && s.is_active)).head?
  else if ["30 day", "30day", "thirty day", "month"].any
      (fun k => substr k.data (pyLower service_type).data) then
    (catalog.filter (fun s => decide (s.duration_days = 30) && s.is_active)).head?
  else if substr "international".data (pyLower service_type).data
      || substr "pass".data (pyLower service_type).data then
    (catalog.filter (fun s => decide (s.service_type = ServiceType.INTERNATIONAL_PASS)
      && s.is_active)).head?
  else
    (catalog.filter (fun s => icontains s.name (pyLower service_type)
      && s.is_active)).head?

/-! ## Add-service operation (`views.py` lines 303-328, `chatbot.py` lines 74-118) -/

/-- `LineService.STATUS_CHOICES` in `models.py`. -/
inductive LSStatus where
  | PENDING
  | ACTIVE
  | EXPIRED
  | CANCELLED
deriving DecidableEq, Repr

/-- A `LineService` junction row (`models.py`), restricted to the fields
the verified logic computes (timestamps, payment method and the random
transaction id carry no verified behaviour). -/
structure LineService where
  line_id : Nat
  service_id : Nat
  status : LSStatus
  amount_paid : Rat
  tax_amount : Rat
  total_amount : Rat
deriving DecidableEq, Repr

/-- The `status__in=['PENDING', 'ACTIVE']` test of the existence
checks. -/
def isPendingOrActive (ls : LineService) : Bool :=
  decide (ls.status = LSStatus.PENDING) || decide (ls.status = LSStatus.ACTIVE)

/-- The existence check both add-service implementations run before
creating a record: `LineService.objects.filter(line=line,
service=service, status__in=['PENDING', 'ACTIVE']).exists()`. -/
def hasActiveService (db : List LineService) (lid sid : Nat) : Bool :=
  db.any (fun ls => decide (ls.line_id = lid) && decide (ls.service_id = sid)
    && isPendingOrActive ls)

/-- Number of `PENDING`-or-`ACTIVE` `LineService` rows for one
`(Line, Service)` pair — the quantity the §3 invariant bounds by 1. -/
def countPA (db : List LineService) (lid sid : Nat) : Nat :=
  (db.filter (fun ls => decide (ls.line_id = lid) && decide (ls.service_id = sid)
    && isPendingOrActive ls)).length

/-- The `LineService.objects.create(...)` record of the add-service
loops: immediately `ACTIVE`, priced at the service price plus 8% tax. -/
def mkLineService (l : Line) (svc : Service) : LineService :=
  { line_id := l.id
    service_id := svc.id
    status := LSStatus.ACTIVE
    amount_paid := svc.price
    tax_amount := svc.price * (8 / 100)
    total_amount := svc.price + svc.price * (8 / 100) }

/-- The per-line loop shared by `views.add_service_to_lines` (lines
303-328) and `chatbot.add_service_to_lines` (lines 74-107): a line
that already has a `PENDING`-or-`ACTIVE` record for the service is
skipped (and counted separately); otherwise a record is created.  The
existence check runs against the live table, so records created earlier
in the same loop are seen.  Returns the created records in creation
order plus the `successful_additions` and skipped counts. -/
def addServiceLoop (db : List LineService) (svc : Service) :
    List Line → List LineService × Nat × Nat
  | [] => ([], 0, 0)
  | l :: ls =>
    if hasActiveService db l.id svc.id then
      ((addServiceLoop db svc ls).1,
       (addServiceLoop db svc ls).2.1,
       (addServiceLoop db svc ls).2.2 + 1)
    else
      (mkLineService l svc :: (addServiceLoop (db ++ [mkLineService l svc]) svc ls).1,
       (addServiceLoop (db ++ [mkLineService l svc]) svc ls).2.1 + 1,
       (addServiceLoop (db ++ [mkLineService l svc]) svc ls).2.2)

/-- `chatbot.add_service_to_lines` core (lines 74-118): run the loop
and report the new table, the newly-charged and skipped counts, and
`total_cost = (price + price * 0.08) * successful_additions`. -/
def add_service_to_lines (db : List LineService) (svc : Service) (lines : List Line) :
    List LineService × Nat × Nat × Rat :=
  (db ++ (addServiceLoop db svc lines).1,
   (addServiceLoop db svc lines).2.1,
   (addServiceLoop db svc lines).2.2,
   (svc.price + svc.price * (8 / 100)) * ((addServiceLoop db svc lines).2.1 : Rat))

/-! ## Line cancel / reactivate (`cancel_lines.py`, `chatbot.py` lines 502-545) -/

/-- The per-line reactivation of `reactivate_cancelled_lines`
(`chatbot.py` lines 525-530), which is applied exactly to the lines
whose status is `CANCELLED`: set the status to `ACTIVE` and clear the
cancellation date (`line.cancelled_on = None`). -/
def reactivate_line (l : Line) : Line :=
  if l.status = LineStatus.CANCELLED then
    { l with status := LineStatus.ACTIVE, cancelled_on := none }
  else l

/-- The per-line cancellation of `cancel_lines.py` (lines 89-96): set
the status to `CANCELLED` from any prior status and record the
cancellation time. -/
def cancel_line (t : Nat) (l : Line) : Line :=
  { l with status := LineStatus.CANCELLED, cancelled_on := some t }

/-! ## Assistant suspend operation (`chatbot.py`, `suspend_lines`, lines 225-368) -/

/-- The flags of the assistant `suspend_lines` result dict that the
claims are about: the `success` flag, the `needs_clarification` hint,
the `auto_suspended` marker and the `lines_suspended` count. -/
structure ChatSuspendResult where
  success : Bool
  needs_clarification : Bool
  auto_suspended : Bool
  lines_suspended : Nat
deriving DecidableEq, Repr

/-- The `line.status = 'SUSPENDED'; line.save()` writes of the suspend
loops, applied to the account lines with the given ids. -/
def suspendByIds (a : Account) (target_ids : List Nat) : Account :=
  { a with lines := a.lines.map (fun l =>
      if l.id ∈ target_ids then { l with status := LineStatus.SUSPENDED } else l) }

/-- `chatbot.suspend_lines` (lines 225-368).  With no identifiers
(lines 243-279): more than one `ACTIVE` line asks for clarification,
exactly one is suspended immediately and flagged `auto_suspended`, none
is a plain failure.  With identifiers (lines 281-364): resolve them; no
match or more than one match asks for clarification; of a unique match
only an `ACTIVE` line is suspended, otherwise the operation fails with
zero lines affected. -/
def chatbot_suspend_lines (a : Account) (line_identifiers : Option (List String)) :
    Account × ChatSuspendResult :=
  if (line_identifiers.getD []).isEmpty then
    match a.lines.filter (fun l => decide (l.status = LineStatus.ACTIVE)) with
    | [] => (a, ⟨false, false, false, 0⟩)
    | [l] => (suspendByIds a [l.id], ⟨true, false, true, 1⟩)
    | _ => (a, ⟨false, true, false, 0⟩)
  else
    match find_lines a line_identifiers none with
    | [] => (a, ⟨false, true, false, 0⟩)
    | [l] =>
      if l.status = LineStatus.ACTIVE then
        (suspendByIds a [l.id], ⟨true, false, false, 1⟩)
      else
        (a, ⟨false, false, false, 0⟩)
    | _ => (a, ⟨false, true, false, 0⟩)

/-! ## Concrete sample data for the closed witness theorems -/

/-- A suspended sample line. -/
def wSuspLine : Line :=
  { id := 1, line_name := "Line 1", msdn := "+1-555-0101",
    employee_name := "John Smith", employee_number := "EMP001",
    status := LineStatus.SUSPENDED }

/-- A cancelled sample line. -/
def wCancLine : Line :=
  { id := 2, line_name := "Line 2", msdn := "+1-555-0102",
    employee_name := "Sarah Johnson", employee_number := "EMP002",
    status := LineStatus.CANCELLED, cancelled_on := some 7 }

/-- An active sample line. -/
def wActLine : Line :=
  { id := 3, line_name := "Line 3", msdn := "+1-555-0103",
    employee_name := "Amanda Lee", employee_number := "EMP003",
    status := LineStatus.ACTIVE }

/-- A second active sample line. -/
def wActLine2 : Line :=
  { id := 4, line_name := "Line 4", msdn := "+1-555-0104",
    employee_name := "Mike Chen", employee_number := "EMP004",
    status := LineStatus.ACTIVE }

/-- A sample line none of whose fields contains `"+1-"` or a space. -/
def wBareLine : Line :=
  { id := 5, line_name := "x", msdn := "123", employee_name := "y",
    employee_number := "z", status := LineStatus.ACTIVE }

/-- Sample account owning one active line. -/
def wAccount1 : Account := { id := 10, status := AccountStatus.ACTIVE, lines := [wActLine] }

/-- Sample account owning two active lines. -/
def wAccount2 : Account :=
  { id := 11, status := AccountStatus.ACTIVE, lines := [wActLine, wActLine2] }

/-- Sample account owning no active line. -/
def wAccount0 : Account := { id := 12, status := AccountStatus.ACTIVE, lines := [wSuspLine] }

/-- Sample account owning only `wBareLine`. -/
def wAccountBare : Account :=
  { id := 13, status := AccountStatus.ACTIVE, lines := [wBareLine] }

/-- The 1-day sample catalog service. -/
def wOneDay : Service :=
  { id := 20, name := "1-Day International Pass",
    service_type := ServiceType.INTERNATIONAL_PASS, price := 1,
    duration_days := 1, is_active := true }

/-! ## Theorems -/

theorem cancelAllLines_status (ls : List Line) :
    ∀ l ∈ cancelAllLines ls, l.status = LineStatus.CANCELLED := by
  intro l hl
  simp only [cancelAllLines, List.mem_map] at hl
  obtain ⟨x, _, rfl⟩ := hl
  rfl

/-- C1: setting the account status to `INACTIVE` — whether through
`Account.update_status` or through the cascade in `Account.save` when a
status change is saved — forces every owned line to `CANCELLED`
(regardless of, and in particular preserving, an already-`CANCELLED`
status), while setting the status to `ACTIVE` leaves every line's
status unchanged on both paths. -/
theorem account_inactive_cascade (a : Account) :
    (∀ l ∈ (a.update_status AccountStatus.INACTIVE).lines,
        l.status = LineStatus.CANCELLED)
    ∧ (∀ l ∈ (Account.saveCascade (some AccountStatus.ACTIVE)
          { a with status := AccountStatus.INACTIVE }).lines,
        l.status = LineStatus.CANCELLED)
    ∧ (a.update_status AccountStatus.ACTIVE).lines = a.lines
    ∧ ∀ old, (Account.saveCascade old { a with status := AccountStatus.ACTIVE }).lines
        = a.lines := by
  refine ⟨?_, ?_, ?_, ?_⟩
  · intro l hl
    simp only [Account.update_status, Account.saveCascade] at hl
    split at hl
    · exact cancelAllLines_status _ _ hl
    · exact cancelAllLines_status _ _ hl
  · intro l hl
    simp only [Account.saveCascade] at hl
    split at hl
    · exact cancelAllLines_status _ _ hl
    · simp_all
  · simp [Account.update_status, Account.saveCascade]
  · intro old
    simp [Account.saveCascade]

theorem viewSuspendStep_id (line_ids : List Nat) (l : Line) :
    (viewSuspendStep line_ids l).id = l.id := by
  unfold viewSuspendStep
  split <;> rfl

theorem viewSuspendStep_idem (line_ids : List Nat) (l : Line) :
    viewSuspendStep line_ids (viewSuspendStep line_ids l) = viewSuspendStep line_ids l := by
  unfold viewSuspendStep
  by_cases h : l.id ∈ line_ids ∧ l.status = LineStatus.ACTIVE
  · simp only [if_pos h]
    rw [if_neg]
    rintro ⟨-, hc⟩
    simp at hc
  · simp only [if_neg h]

theorem filter_map_comm (f : Line → Line) (p : Line → Bool)
    (h : ∀ x, p (f x) = p x) (l : List Line) :
    (l.map f).filter p = (l.filter p).map f := by
  induction l with
  | nil => rfl
  | cons x xs ih =>
    simp only [List.map_cons, List.filter_cons, h]
    cases p x <;> simp [ih]

theorem views_suspend_lines_idem (db : List Line) (line_ids : List Nat) :
    (views_suspend_lines (views_suspend_lines db line_ids).1 line_ids).1
      = (views_suspend_lines db line_ids).1 := by
  by_cases h0 : line_ids.isEmpty
  · simp [views_suspend_lines, h0]
  · by_cases h1 : (db.filter (fun l => decide (l.id ∈ line_ids))).isEmpty
    · simp [views_suspend_lines, h0, h1]
    · have hstep : (views_suspend_lines db line_ids).1
          = db.map (viewSuspendStep line_ids) := by
        unfold views_suspend_lines
        rw [if_neg h0, if_neg h1]
      have hfeq : (db.map (viewSuspendStep line_ids)).filter
            (fun l => decide (l.id ∈ line_ids))
          = (db.filter (fun l => decide (l.id ∈ line_ids))).map
            (viewSuspendStep line_ids) :=
        filter_map_comm _ _ (by intro x; simp [viewSuspendStep_id]) db
      have h2 : ¬ ((db.map (viewSuspendStep line_ids)).filter
          (fun l => decide (l.id ∈ line_ids))).isEmpty := by
        rw [hfeq, List.isEmpty_iff, List.map_eq_nil_iff]
        rw [List.isEmpty_iff] at h1
        exact h1
      have hstep2 : (views_suspend_lines (db.map (viewSuspendStep line_ids)) line_ids).1
          = (db.map (viewSuspendStep line_ids)).map (viewSuspendStep line_ids) := by
        unfold views_suspend_lines
        rw [if_neg h0, if_neg h2]
      rw [hstep, hstep2, List.map_map]
      exact List.map_congr_left fun l _ => viewSuspendStep_idem line_ids l

/-- C2: a `SUSPEND` request (the bulk endpoint `views.suspend_lines`)
naming an already-`SUSPENDED` line leaves that line unchanged, answers
with the success envelope rather than an error, and does not list that
line among the lines affected; and the whole operation is idempotent on
the stored line statuses, so running it twice on the same line set
equals running it once. -/
theorem suspend_suspended_line_noop (db : List Line) (line_ids : List Nat) (l : Line)
    (hnd : (db.map Line.id).Nodup)
    (hl : l ∈ db) (hs : l.status = LineStatus.SUSPENDED) (hid : l.id ∈ line_ids) :
    (∃ r, (views_suspend_lines db line_ids).2 = ViewResponse.ok r ∧ l.id ∉ r)
    ∧ l ∈ (views_suspend_lines db line_ids).1
    ∧ ∀ (db2 : List Line) (ids2 : List Nat),
        (views_suspend_lines (views_suspend_lines db2 ids2).1 ids2).1
          = (views_suspend_lines db2 ids2).1 := by
  have hne : ¬ line_ids.isEmpty := by
    cases line_ids with
    | nil => cases hid
    | cons a as => simp
  have hmem : l ∈ db.filter (fun l => decide (l.id ∈ line_ids)) := by
    simp [List.mem_filter, hl, hid]
  have hfne : ¬ (db.filter (fun l => decide (l.id ∈ line_ids))).isEmpty := by
    intro hc
    rw [List.isEmpty_iff] at hc
    rw [hc] at hmem
    cases hmem
  refine ⟨?_, ?_, fun db2 ids2 => views_suspend_lines_idem db2 ids2⟩
  · refine ⟨((db.filter (fun l => decide (l.id ∈ line_ids))).filter
        (fun l => decide (l.status = LineStatus.ACTIVE))).map Line.id, ?_, ?_⟩
    · unfold views_suspend_lines
      rw [if_neg hne, if_neg hfne]
    · intro hcontra
      simp only [List.mem_map, List.mem_filter, decide_eq_true_iff] at hcontra
      obtain ⟨l2, ⟨⟨hl2db, -⟩, hl2act⟩, hl2id⟩ := hcontra
      have heq : l2 = l := List.inj_on_of_nodup_map hnd hl2db hl hl2id
      rw [heq, hs] at hl2act
      cases hl2act
  · have hstep : (views_suspend_lines db line_ids).1
        = db.map (viewSuspendStep line_ids) := by
      unfold views_suspend_lines
      rw [if_neg hne, if_neg hfne]
    rw [hstep]
    refine List.mem_map.mpr ⟨l, hl, ?_⟩
    unfold viewSuspendStep
    rw [if_neg]
    rintro ⟨-, hc⟩
    rw [hs] at hc
    cases hc

/-- Closed witness for `suspend_suspended_line_noop`: a one-line table
whose only line is suspended and selected. -/
theorem suspend_suspended_line_noop_witness :
    (∃ r, (views_suspend_lines [wSuspLine] [1]).2 = ViewResponse.ok r ∧ wSuspLine.id ∉ r)
    ∧ wSuspLine ∈ (views_suspend_lines [wSuspLine] [1]).1
    ∧ ∀ (db2 : List Line) (ids2 : List Nat),
        (views_suspend_lines (views_suspend_lines db2 ids2).1 ids2).1
          = (views_suspend_lines db2 ids2).1 :=
  suspend_suspended_line_noop [wSuspLine] [1] wSuspLine (by decide) (by decide)
    (by decide) (by decide)

/-- C3: with an absent (`None`) or an empty identifier list and no
status filter, `_find_lines` returns exactly `account.lines.all()` —
every owned line, in the persisted ordering, never fewer. -/
theorem find_lines_no_identifiers_all_lines (a : Account) :
    find_lines a none none = a.lines ∧ find_lines a (some []) none = a.lines :=
  ⟨rfl, rfl⟩

theorem collectMatches_blank (a : Account) :
    ∀ ids : List String, (∀ i ∈ ids, (pyStrip i).isEmpty) → collectMatches a ids = [] := by
  intro ids h
  induction ids with
  | nil => rfl
  | cons i is ih =>
    simp only [collectMatches]
    rw [if_pos (h i (by simp))]
    exact ih fun j hj => h j (by simp [hj])

/-- C9: an identifier list that is non-empty but consists only of
empty or whitespace-only strings is not treated as an absent list:
every blank identifier is skipped without matching anything, so the
resolver returns the empty list — whereas an empty or absent list
returns all the account's lines. -/
theorem find_lines_blank_identifiers (a : Account) (ids : List String)
    (hne : ids ≠ [])
    (hblank : ∀ i ∈ ids, (pyStrip i).isEmpty) :
    find_lines a (some ids) none = []
    ∧ find_lines a (some []) none = a.lines
    ∧ find_lines a none none = a.lines := by
  refine ⟨?_, rfl, rfl⟩
  have hne' : ids.isEmpty = false := by
    cases ids with
    | nil => exact absurd rfl hne
    | cons i is => rfl
  simp only [find_lines, Option.getD_some, hne', collectMatches_blank a ids hblank]
  rfl

/-- Closed witness for `find_lines_blank_identifiers`: a list of one
all-whitespace identifier against a one-line account. -/
theorem find_lines_blank_identifiers_witness :
    find_lines wAccount1 (some ["  "]) none = []
    ∧ find_lines wAccount1 (some []) none = wAccount1.lines
    ∧ find_lines wAccount1 none none = wAccount1.lines :=
  find_lines_blank_identifiers wAccount1 ["  "] (by decide) (by decide)

/-- C8: a `CANCELLED` line put through `REACTIVATE`, then `CANCEL`,
then `REACTIVATE` ends `ACTIVE` with no residual cancellation
timestamp (each reactivation clears `cancelled_on`). -/
theorem reactivate_cancel_reactivate_roundtrip (l : Line) (t : Nat)
    (h : l.status = LineStatus.CANCELLED) :
    (reactivate_line (cancel_line t (reactivate_line l))).status = LineStatus.ACTIVE
    ∧ (reactivate_line (cancel_line t (reactivate_line l))).cancelled_on = none := by
  simp [reactivate_line, cancel_line, h]

/-- Closed witness for `reactivate_cancel_reactivate_roundtrip` on a
concrete cancelled line. -/
theorem reactivate_cancel_reactivate_roundtrip_witness :
    (reactivate_line (cancel_line 5 (reactivate_line wCancLine))).status = LineStatus.ACTIVE
    ∧ (reactivate_line (cancel_line 5 (reactivate_line wCancLine))).cancelled_on = none :=
  reactivate_cancel_reactivate_roundtrip wCancLine 5 (by decide)

theorem tokenFallback_subset (a : Account) (ts : List String) :
    ∀ x ∈ tokenFallback a ts, x ∈ a.lines := by
  induction ts with
  | nil => intro x hx; cases hx
  | cons t ts ih =>
    intro x hx
    simp only [tokenFallback] at hx
    split at hx
    · split at hx
      · exact ih x hx
      · exact List.mem_of_mem_filter hx
    · exact ih x hx

theorem phoneRetry_subset (a : Account) (ident : String) :
    ∀ x ∈ phoneRetry a ident, x ∈ a.lines := by
  intro x hx
  simp only [phoneRetry] at hx
  split at hx
  · split at hx
    · cases hx
    · exact List.mem_of_mem_filter hx
  · cases hx

theorem matchesFor_subset (a : Account) (raw : String) :
    ∀ x ∈ matchesFor a raw, x ∈ a.lines := by
  intro x hx
  simp only [matchesFor] at hx
  split at hx
  · split at hx
    · exact tokenFallback_subset a _ x hx
    · exact phoneRetry_subset a _ x hx
  · exact List.mem_of_mem_filter hx

theorem collectMatches_subset (a : Account) (ids : List String) :
    ∀ x ∈ collectMatches a ids, x ∈ a.lines := by
  induction ids with
  | nil => intro x hx; cases hx
  | cons i is ih =>
    intro x hx
    simp only [collectMatches] at hx
    split at hx
    · exact ih x hx
    · rcases List.mem_append.mp hx with h | h
      · exact matchesFor_subset a i x h
      · exact ih x h

theorem mem_matchesFor_of_directMatch (a : Account) (raw : String) (l : Line)
    (hl : l ∈ a.lines) (hm : directMatch (pyStrip (pyLower raw)) l = true) :
    l ∈ matchesFor a raw := by
  have hmem : l ∈ directMatches a (pyStrip (pyLower raw)) :=
    List.mem_filter.mpr ⟨hl, hm⟩
  have hne : (directMatches a (pyStrip (pyLower raw))).isEmpty = false := by
    cases hq : directMatches a (pyStrip (pyLower raw)) with
    | nil => rw [hq] at hmem; cases hmem
    | cons _ _ => rfl
  simp only [matchesFor, hne]
  simpa using hmem

theorem mem_collectMatches (a : Account) (ids : List String) (i : String) (l : Line)
    (hi : i ∈ ids) (hblank : (pyStrip i).isEmpty = false)
    (hm : l ∈ matchesFor a i) : l ∈ collectMatches a ids := by
  induction ids with
  | nil => cases hi
  | cons j js ih =>
    simp only [collectMatches]
    rcases List.mem_cons.mp hi with rfl | hi2
    · rw [if_neg (by simp [hblank])]
      exact List.mem_append.mpr (Or.inl hm)
    · split
      · exact ih hi2
      · exact List.mem_append.mpr (Or.inr (ih hi2))

theorem dedupByIdAux_sublist (seen : List Nat) (xs : List Line) :
    List.Sublist (dedupByIdAux seen xs) xs := by
  induction xs generalizing seen with
  | nil => exact List.Sublist.refl []
  | cons x xs ih =>
    simp only [dedupByIdAux]
    split
    · exact (ih seen).trans (List.sublist_cons_self x xs)
    · exact (ih (x.id :: seen)).cons₂ x

theorem dedupByIdAux_id_not_seen (seen : List Nat) (xs : List Line) :
    ∀ x ∈ dedupByIdAux seen xs, x.id ∉ seen := by
  induction xs generalizing seen with
  | nil => intro x hx; cases hx
  | cons y ys ih =>
    intro x hx
    simp only [dedupByIdAux] at hx
    split at hx
    · exact ih seen x hx
    · rcases List.mem_cons.mp hx with rfl | hx2
      · assumption
      · intro hc
        exact (ih (y.id :: seen) x hx2) (List.mem_cons_of_mem _ hc)

theorem dedupByIdAux_nodup (seen : List Nat) (xs : List Line) :
    ((dedupByIdAux seen xs).map Line.id).Nodup := by
  induction xs generalizing seen with
  | nil => exact List.nodup_nil
  | cons y ys ih =>
    simp only [dedupByIdAux]
    split
    · exact ih seen
    · simp only [List.map_cons, List.nodup_cons]
      refine ⟨?_, ih (y.id :: seen)⟩
      intro hc
      rcases List.mem_map.mp hc with ⟨x, hx, hxid⟩
      exact dedupByIdAux_id_not_seen _ _ x hx (by rw [hxid]; exact List.mem_cons_self _ _)

theorem mem_dedupByIdAux :
    ∀ (xs : List Line) (seen : List Nat),
      (∀ x ∈ xs, ∀ y ∈ xs, x.id = y.id → x = y) →
      ∀ l ∈ xs, l.id ∉ seen → l ∈ dedupByIdAux seen xs := by
  intro xs
  induction xs with
  | nil =>
    intro seen _ l hl
    cases hl
  | cons y ys ih =>
    intro seen hinj l hl hns
    have hinj2 : ∀ x ∈ ys, ∀ z ∈ ys, x.id = z.id → x = z :=
      fun x hx z hz => hinj x (List.mem_cons_of_mem _ hx) z (List.mem_cons_of_mem _ hz)
    simp only [dedupByIdAux]
    rcases List.mem_cons.mp hl with rfl | hl2
    · rw [if_neg hns]
      exact List.mem_cons_self _ _
    · by_cases hy : y.id ∈ seen
      · rw [if_pos hy]
        exact ih seen hinj2 l hl2 hns
      · rw [if_neg hy]
        by_cases hid : l.id = y.id
        · have hly : l = y := hinj l (List.mem_cons_of_mem _ hl2) y (List.mem_cons_self _ _) hid
          rw [hly]
          exact List.mem_cons_self _ _
        · refine List.mem_cons_of_mem y (ih (y.id :: seen) hinj2 l hl2 ?_)
          intro hc
          rcases List.mem_cons.mp hc with heq | hc2
          · exact hid heq
          · exact hns hc2

theorem dedupByIdAux_map (seen : List Nat) (xs : List Line) :
    (dedupByIdAux seen xs).map Line.id = dedupFirstSpecAux seen (xs.map Line.id) := by
  induction xs generalizing seen with
  | nil => rfl
  | cons y ys ih =>
    simp only [dedupByIdAux, List.map_cons, dedupFirstSpecAux]
    split
    · exact ih seen
    · simp only [List.map_cons]
      rw [ih (y.id :: seen)]

/-- C4 counterexample: the claim as stated fails for a whitespace-only
identifier.  `" "` is a case-insensitive substring of the line name
`"Line 3"` of `wActLine`, so by the claim the resolution of `[" "]`
should include that line; but `_find_lines` skips identifiers whose
`strip()` is empty, so the result is empty. -/
theorem resolver_direct_match_counterexample :
    icontains wActLine.line_name " " = true
    ∧ wActLine ∈ wAccount1.lines
    ∧ find_lines wAccount1 (some [" "]) none = [] := by decide

/-- C4 (amended): for every account with distinct line ids, a non-empty
identifier list, and a line matching some identifier that is not empty
or whitespace-only by case-insensitive substring containment on any of
the four direct fields, the resolution result contains that line
exactly once — even when the identifier matches several of its fields
or several identifiers match it — the result is a sublist of the
aggregated per-identifier match sequence (so relative order is
preserved), and its id sequence is exactly the first-seen
deduplication of the aggregated match ids. -/
theorem resolver_direct_match_included (a : Account) (ids : List String) (i : String)
    (l : Line)
    (hnd : (a.lines.map Line.id).Nodup)
    (hl : l ∈ a.lines) (hi : i ∈ ids)
    (hblank : (pyStrip i).isEmpty = false)
    (hmatch : directMatch (pyStrip (pyLower i)) l = true) :
    (find_lines a (some ids) none).count l = 1
    ∧ List.Sublist (find_lines a (some ids) none) (collectMatches a ids)
    ∧ (find_lines a (some ids) none).map Line.id
        = dedupFirstSpec ((collectMatches a ids).map Line.id) := by
  have hne : ids.isEmpty = false := by
    cases ids with
    | nil => cases hi
    | cons _ _ => rfl
  have hfl : find_lines a (some ids) none = dedupById (collectMatches a ids) := by
    simp only [find_lines, Option.getD_some, hne]
    rfl
  have hinj : ∀ x ∈ collectMatches a ids, ∀ y ∈ collectMatches a ids,
      x.id = y.id → x = y :=
    fun x hx y hy hxy => List.inj_on_of_nodup_map hnd
      (collectMatches_subset a ids x hx) (collectMatches_subset a ids y hy) hxy
  have hmm : l ∈ collectMatches a ids :=
    mem_collectMatches a ids i l hi hblank (mem_matchesFor_of_directMatch a i l hl hmatch)
  have hmem : l ∈ dedupById (collectMatches a ids) :=
    mem_dedupByIdAux _ [] hinj l hmm (by simp)
  have hnodup : ((dedupById (collectMatches a ids)).map Line.id).Nodup :=
    dedupByIdAux_nodup [] _
  refine ⟨?_, ?_, ?_⟩
  · rw [hfl]
    exact List.count_eq_one_of_mem (List.Nodup.of_map Line.id hnodup) hmem
  · rw [hfl]
    exact dedupByIdAux_sublist [] _
  · rw [hfl]
    exact dedupByIdAux_map [] _

/-- Closed witness for `resolver_direct_match_included`: the identifier
`"amanda"` matches the employee name of `wActLine` in `wAccount2`. -/
theorem resolver_direct_match_included_witness :
    (find_lines wAccount2 (some ["amanda"]) none).count wActLine = 1
    ∧ List.Sublist (find_lines wAccount2 (some ["amanda"]) none)
        (collectMatches wAccount2 ["amanda"])
    ∧ (find_lines wAccount2 (some ["amanda"]) none).map Line.id
        = dedupFirstSpec ((collectMatches wAccount2 ["amanda"]).map Line.id) :=
  resolver_direct_match_included wAccount2 ["amanda"] "amanda" wActLine
    (by decide) (by decide) (by decide) (by decide) (by decide)

theorem tokenFallback_eq_specTokenWalk (a : Account) (ts : List String) :
    tokenFallback a ts = specTokenWalk a ts := by
  induction ts with
  | nil => rfl
  | cons t ts ih =>
    simp only [tokenFallback, specTokenWalk]
    by_cases h1 : t.length > 2
    · rw [if_pos h1]
      by_cases h2 : (a.lines.filter (fun l => icontains l.employee_name t)).isEmpty
      · rw [if_pos h2, if_neg, ih]
        rintro ⟨-, hne⟩
        exact hne (List.isEmpty_iff.mp h2)
      · rw [if_neg h2, if_pos ⟨h1, fun hc => h2 (by rw [hc]; rfl)⟩]
    · rw [if_neg h1, if_neg, ih]
      rintro ⟨hc, -⟩
      exact h1 hc

theorem phoneRetry_pipeline (a : Account) (ident : String) :
    (if (phoneRetry a ident).isEmpty then specTokenWalk a (pySplit ident)
     else phoneRetry a ident)
    = (if ((pyStartsWith ident "+1-" || pyStartsWith ident "555")
          && !(pyReplace (pyReplace ident "+1-" "") "555-" "").isEmpty
          && !(a.lines.filter (fun l => icontains l.msdn
                (pyReplace (pyReplace ident "+1-" "") "555-" ""))).isEmpty)
       then a.lines.filter (fun l => icontains l.msdn
              (pyReplace (pyReplace ident "+1-" "") "555-" ""))
       else specTokenWalk a (pySplit ident)) := by
  unfold phoneRetry
  cases hpre : pyStartsWith ident "+1-" || pyStartsWith ident "555" with
  | false => simp [hpre]
  | true =>
    cases hclean : (pyReplace (pyReplace ident "+1-" "") "555-" "").isEmpty with
    | true => simp [hclean]
    | false =>
      cases hfil : (a.lines.filter (fun l => icontains l.msdn
          (pyReplace (pyReplace ident "+1-" "") "555-" ""))).isEmpty with
      | true => simp [hclean, hfil, List.isEmpty_iff.mp hfil]
      | false => simp [hclean, hfil]

/-- C5 counterexample: the claim as stated fails for the identifier
`"+1-"` against `wAccountBare` (a single line with `msdn = "123"` and
no field containing `"+1-"`).  The direct fields yield zero matches and
the identifier starts with the country-code prefix; stripping that
prefix leaves the empty string, and a retry of the stripped remainder
against `msdn` by substring containment would match the line — but
`_find_lines` skips the retry entirely when the remainder is empty
(`if clean_identifier:`), and the token fallback also fails, so the
resolver returns nothing. -/
theorem resolver_phone_retry_counterexample :
    directMatches wAccountBare "+1-" = []
    ∧ pyStartsWith "+1-" "+1-" = true
    ∧ pyReplace (pyReplace "+1-" "+1-" "") "555-" "" = ""
    ∧ wAccountBare.lines.filter (fun l => icontains l.msdn "") = [wBareLine]
    ∧ find_lines wAccountBare (some ["+1-"]) none = [] := by decide

/-- C5 (amended): for every identifier whose normalised form yields
zero matches against the four direct fields: if the identifier starts
with the country-code prefix `"+1-"` or the area-code prefix `"555"`
AND stripping the occurrences of `"+1-"` and `"555-"` leaves a
non-empty remainder, matching is retried with that remainder against
`msdn` only; if no retry applied (no prefix, or an empty remainder) or
the retry still yields zero matches, the identifier is split into
whitespace-separated tokens and each token of length greater than 2 is
substring-matched against `employee_name` only, stopping at the first
token that yields any match. -/
theorem resolver_fallback_structure (a : Account) (raw : String)
    (h0 : directMatches a (pyStrip (pyLower raw)) = []) :
    matchesFor a raw
    = (if ((pyStartsWith (pyStrip (pyLower raw)) "+1-"
            || pyStartsWith (pyStrip (pyLower raw)) "555")
          && !(pyReplace (pyReplace (pyStrip (pyLower raw)) "+1-" "") "555-" "").isEmpty
          && !(a.lines.filter (fun l => icontains l.msdn
                (pyReplace (pyReplace (pyStrip (pyLower raw)) "+1-" "") "555-" ""))).isEmpty)
       then a.lines.filter (fun l => icontains l.msdn
              (pyReplace (pyReplace (pyStrip (pyLower raw)) "+1-" "") "555-" ""))
       else specTokenWalk a (pySplit (pyStrip (pyLower raw)))) := by
  have hde : (directMatches a (pyStrip (pyLower raw))).isEmpty = true := by
    rw [h0]
    rfl
  have h1 : matchesFor a raw
      = (if (phoneRetry a (pyStrip (pyLower raw))).isEmpty
         then specTokenWalk a (pySplit (pyStrip (pyLower raw)))
         else phoneRetry a (pyStrip (pyLower raw))) := by
    simp only [matchesFor, hde, if_true, tokenFallback_eq_specTokenWalk]
  rw [h1, phoneRetry_pipeline]

/-- Closed witness for `resolver_fallback_structure`: the identifier
`"zz"` has no direct match in `wAccountBare` and no phone prefix, so
resolution falls through to the (empty) token walk. -/
theorem resolver_fallback_structure_witness :
    matchesFor wAccountBare "zz"
    = (if ((pyStartsWith (pyStrip (pyLower "zz")) "+1-"
            || pyStartsWith (pyStrip (pyLower "zz")) "555")
          && !(pyReplace (pyReplace (pyStrip (pyLower "zz")) "+1-" "") "555-" "").isEmpty
          && !(wAccountBare.lines.filter (fun l => icontains l.msdn
                (pyReplace (pyReplace (pyStrip (pyLower "zz")) "+1-" "") "555-" ""))).isEmpty)
       then wAccountBare.lines.filter (fun l => icontains l.msdn
              (pyReplace (pyReplace (pyStrip (pyLower "zz")) "+1-" "") "555-" ""))
       else specTokenWalk wAccountBare (pySplit (pyStrip (pyLower "zz")))) :=
  resolver_fallback_structure wAccountBare "zz" (by decide)

/-- C6: when the catalog holds exactly one active service with
`duration_days = 1`, the descriptors `"1_day"` (canonical key),
`"one day"` and `"1 day pass"` (keyword synonyms) all resolve to that
same service record. -/
theorem find_service_one_day_synonyms (catalog : List Service) (s : Service)
    (h : catalog.filter (fun x => x.is_active && decide (x.duration_days = 1)) = [s]) :
    find_service catalog "1_day" = some s
    ∧ find_service catalog "one day" = some s
    ∧ find_service catalog "1 day pass" = some s := by
  have hq : catalog.filter (fun x => decide (x.duration_days = 1) && x.is_active) = [s] :=
    (List.filter_congr fun x _ => Bool.and_comm _ _).trans h
  refine ⟨?_, ?_, ?_⟩
  · show (catalog.filter (fun x => x.is_active && decide (x.duration_days = 1))).head?
        = some s
    rw [h]
    rfl
  · show (catalog.filter (fun x => decide (x.duration_days = 1) && x.is_active)).head?
        = some s
    rw [hq]
    rfl
  · show (catalog.filter (fun x => decide (x.duration_days = 1) && x.is_active)).head?
        = some s
    rw [hq]
    rfl

/-- Closed witness for `find_service_one_day_synonyms` on a one-entry
catalog. -/
theorem find_service_one_day_synonyms_witness :
    find_service [wOneDay] "1_day" = some wOneDay
    ∧ find_service [wOneDay] "one day" = some wOneDay
    ∧ find_service [wOneDay] "1 day pass" = some wOneDay :=
  find_service_one_day_synonyms [wOneDay] wOneDay (by decide)

theorem countPA_append (d1 d2 : List LineService) (lid sid : Nat) :
    countPA (d1 ++ d2) lid sid = countPA d1 lid sid + countPA d2 lid sid := by
  simp [countPA, List.filter_append]

theorem countPA_zero_of_no_active (db : List LineService) (lid sid : Nat)
    (h : hasActiveService db lid sid = false) : countPA db lid sid = 0 := by
  unfold hasActiveService at h
  unfold countPA
  rw [List.length_eq_zero, List.filter_eq_nil_iff]
  exact List.any_eq_false.mp h

theorem countPA_mk_single (l : Line) (svc : Service) (lid sid : Nat) :
    countPA [mkLineService l svc] lid sid
      = if l.id = lid ∧ svc.id = sid then 1 else 0 := by
  by_cases h1 : l.id = lid <;> by_cases h2 : svc.id = sid <;>
    simp [countPA, mkLineService, isPendingOrActive, h1, h2]

theorem hasActiveService_append_left (db d2 : List LineService) (lid sid : Nat)
    (h : hasActiveService db lid sid = true) :
    hasActiveService (db ++ d2) lid sid = true := by
  unfold hasActiveService at h ⊢
  rw [List.any_append, h]
  rfl

theorem sum_map_total_const (l : List LineService) (c : Rat)
    (h : ∀ x ∈ l, x.total_amount = c) :
    (l.map LineService.total_amount).sum = c * l.length := by
  induction l with
  | nil => simp
  | cons x xs ih =>
    simp only [List.map_cons, List.sum_cons, List.length_cons]
    rw [h x (List.mem_cons_self _ _), ih fun y hy => h y (List.mem_cons_of_mem _ hy)]
    push_cast
    ring

theorem addServiceLoop_spec :
    ∀ (lines : List Line) (db : List LineService) (svc : Service),
      (∀ lid sid, countPA db lid sid ≤ 1) →
      ∀ created succ skip, addServiceLoop db svc lines = (created, succ, skip) →
        (∀ lid sid, countPA (db ++ created) lid sid ≤ 1)
        ∧ created.length = succ
        ∧ succ + skip = lines.length
        ∧ (∀ c ∈ created, c.total_amount = svc.price + svc.price * (8 / 100))
        ∧ (∀ lid, hasActiveService db lid svc.id = true →
            ∀ c ∈ created, c.line_id ≠ lid) := by
  intro lines
  induction lines with
  | nil =>
    intro db svc hinv created succ skip heq
    simp only [addServiceLoop] at heq
    injection heq with e1 rest
    injection rest with e2 e3
    subst e1 e2 e3
    refine ⟨by simpa using hinv, rfl, rfl, ?_, ?_⟩
    · intro c hc; cases hc
    · intro lid _ c hc; cases hc
  | cons l ls ih =>
    intro db svc hinv created succ skip heq
    simp only [addServiceLoop] at heq
    by_cases hcase : hasActiveService db l.id svc.id = true
    · rw [if_pos hcase] at heq
      injection heq with e1 rest
      injection rest with e2 e3
      subst e1 e2 e3
      obtain ⟨h1, h2, h3, h4, h5⟩ := ih db svc hinv
        (addServiceLoop db svc ls).1 (addServiceLoop db svc ls).2.1
        (addServiceLoop db svc ls).2.2 rfl
      refine ⟨h1, h2, by simp only [List.length_cons]; omega, h4, h5⟩
    · rw [if_neg hcase] at heq
      have hfalse : hasActiveService db l.id svc.id = false := by
        cases hval : hasActiveService db l.id svc.id with
        | false => rfl
        | true => exact absurd hval hcase
      have hinv2 : ∀ lid sid, countPA (db ++ [mkLineService l svc]) lid sid ≤ 1 := by
        intro lid sid
        rw [countPA_append, countPA_mk_single]
        by_cases hp : l.id = lid ∧ svc.id = sid
        · rw [if_pos hp]
          have hz : countPA db lid sid = 0 := by
            rw [← hp.1, ← hp.2]
            exact countPA_zero_of_no_active db l.id svc.id hfalse
          omega
        · rw [if_neg hp]
          have := hinv lid sid
          omega
      obtain ⟨h1, h2, h3, h4, h5⟩ := ih (db ++ [mkLineService l svc]) svc hinv2
        (addServiceLoop (db ++ [mkLineService l svc]) svc ls).1
        (addServiceLoop (db ++ [mkLineService l svc]) svc ls).2.1
        (addServiceLoop (db ++ [mkLineService l svc]) svc ls).2.2 rfl
      injection heq with e1 rest
      injection rest with e2 e3
      subst e1 e2 e3
      refine ⟨?_, by simp [h2], by simp only [List.length_cons]; omega, ?_, ?_⟩
      · intro lid sid
        have hassoc : db ++ mkLineService l svc
            :: (addServiceLoop (db ++ [mkLineService l svc]) svc ls).1
            = (db ++ [mkLineService l svc])
              ++ (addServiceLoop (db ++ [mkLineService l svc]) svc ls).1 := by
          simp
        rw [hassoc]
        exact h1 lid sid
      · intro c hc
        rcases List.mem_cons.mp hc with rfl | hc2
        · rfl
        · exact h4 c hc2
      · intro lid hact c hc
        rcases List.mem_cons.mp hc with rfl | hc2
        · show (mkLineService l svc).line_id ≠ lid
          intro hcon
          have : hasActiveService db l.id svc.id = true := by
            have hlid : (mkLineService l svc).line_id = l.id := rfl
            rw [hlid] at hcon
            rw [hcon]
            exact hact
          exact hcase this
        · exact h5 lid (hasActiveService_append_left db [mkLineService l svc] lid svc.id hact)
            c hc2

/-- C7: if the `LineService` table has at most one `PENDING`-or-`ACTIVE`
record per `(Line, Service)` pair, then after an add-service operation
it still does (the operation checks for an existing such record before
creating one and skips the line otherwise); the newly-charged and
skipped lines are counted separately and partition the request; the
reported total cost equals the sum of the total amounts of exactly the
newly created records; and no record is created for a line that already
had a `PENDING`-or-`ACTIVE` record of the service. -/
theorem add_service_pending_active_invariant (db : List LineService) (svc : Service)
    (lines : List Line)
    (hinv : ∀ lid sid, countPA db lid sid ≤ 1) :
    (∀ lid sid, countPA (add_service_to_lines db svc lines).1 lid sid ≤ 1)
    ∧ (add_service_to_lines db svc lines).2.1 + (add_service_to_lines db svc lines).2.2.1
        = lines.length
    ∧ (add_service_to_lines db svc lines).2.2.2
        = (((add_service_to_lines db svc lines).1.drop db.length).map
            LineService.total_amount).sum
    ∧ ∀ lid, hasActiveService db lid svc.id = true →
        ∀ c ∈ (add_service_to_lines db svc lines).1.drop db.length, c.line_id ≠ lid := by
  obtain ⟨h1, h2, h3, h4, h5⟩ := addServiceLoop_spec lines db svc hinv
    (addServiceLoop db svc lines).1 (addServiceLoop db svc lines).2.1
    (addServiceLoop db svc lines).2.2 rfl
  have hdrop : (add_service_to_lines db svc lines).1.drop db.length
      = (addServiceLoop db svc lines).1 := by
    show (db ++ (addServiceLoop db svc lines).1).drop db.length = _
    exact List.drop_left db _
  refine ⟨h1, h3, ?_, ?_⟩
  · rw [hdrop]
    show (svc.price + svc.price * (8 / 100)) * ((addServiceLoop db svc lines).2.1 : Rat)
      = ((addServiceLoop db svc lines).1.map LineService.total_amount).sum
    rw [sum_map_total_const _ _ h4, h2]
  · intro lid hact c hc
    rw [hdrop] at hc
    exact h5 lid hact c hc

/-- Closed witness for `add_service_pending_active_invariant`: adding
the 1-day pass twice to the same line over an empty table — the second
occurrence is skipped because the first created a record. -/
theorem add_service_pending_active_invariant_witness :
    (∀ lid sid, countPA (add_service_to_lines [] wOneDay [wActLine, wActLine]).1 lid sid ≤ 1)
    ∧ (add_service_to_lines [] wOneDay [wActLine, wActLine]).2.1
        + (add_service_to_lines [] wOneDay [wActLine, wActLine]).2.2.1
        = [wActLine, wActLine].length
    ∧ (add_service_to_lines [] wOneDay [wActLine, wActLine]).2.2.2
        = (((add_service_to_lines [] wOneDay [wActLine, wActLine]).1.drop
            ([] : List LineService).length).map LineService.total_amount).sum
    ∧ ∀ lid, hasActiveService [] lid wOneDay.id = true →
        ∀ c ∈ (add_service_to_lines [] wOneDay [wActLine, wActLine]).1.drop
            ([] : List LineService).length, c.line_id ≠ lid :=
  add_service_pending_active_invariant [] wOneDay [wActLine, wActLine]
    (fun lid sid => by simp [countPA])

/-- C10: the assistant suspend operation called with no line
identifiers: with more than one `ACTIVE` line it changes nothing and
fails asking for clarification; with exactly one `ACTIVE` line it
suspends that line immediately and flags the result `auto_suspended`;
with no `ACTIVE` line it fails and changes nothing. -/
theorem chatbot_suspend_no_identifiers (a : Account) :
    ((a.lines.filter (fun l => decide (l.status = LineStatus.ACTIVE))).length > 1 →
      chatbot_suspend_lines a none = (a, ⟨false, true, false, 0⟩))
    ∧ (∀ l, a.lines.filter (fun l => decide (l.status = LineStatus.ACTIVE)) = [l] →
      chatbot_suspend_lines a none = (suspendByIds a [l.id], ⟨true, false, true, 1⟩))
    ∧ (a.lines.filter (fun l => decide (l.status = LineStatus.ACTIVE)) = [] →
      chatbot_suspend_lines a none = (a, ⟨false, false, false, 0⟩)) := by
  refine ⟨?_, ?_, ?_⟩
  · intro hgt
    rcases hact : a.lines.filter (fun l => decide (l.status = LineStatus.ACTIVE)) with
      _ | ⟨x, _ | ⟨y, ys⟩⟩
    · rw [hact] at hgt
      simp at hgt
    · rw [hact] at hgt
      simp at hgt
    · simp [chatbot_suspend_lines, hact]
  · intro l hact
    simp [chatbot_suspend_lines, hact]
  · intro hact
    simp [chatbot_suspend_lines, hact]

/-- Closed witness for `chatbot_suspend_no_identifiers` on accounts
with two, one and zero active lines. -/
theorem chatbot_suspend_no_identifiers_witness :
    chatbot_suspend_lines wAccount2 none = (wAccount2, ⟨false, true, false, 0⟩)
    ∧ chatbot_suspend_lines wAccount1 none
        = (suspendByIds wAccount1 [wActLine.id], ⟨true, false, true, 1⟩)
    ∧ chatbot_suspend_lines wAccount0 none = (wAccount0, ⟨false, false, false, 0⟩) :=
  ⟨(chatbot_suspend_no_identifiers wAccount2).1 (by decide),
   (chatbot_suspend_no_identifiers wAccount1).2.1 wActLine (by decide),
   (chatbot_suspend_no_identifiers wAccount0).2.2 (by decide)⟩
